import Mathlib

/-!
# FourT MIDI community — verification of the points / pricing / session core

Shallow embedding of the community frontend (`src/server/web/community/app.js`)
and, where the server side is not part of the sources, of the behaviour the
specification prescribes for it (those definitions are marked
`Modelled from the spec:`).

The frontend is plain JavaScript; object-literal lookups such as
`baseCosts[midiType]` follow JavaScript property-lookup semantics, including
the prototype chain: a key naming a member of `Object.prototype` (for example
`"toString"`) finds the inherited member instead of `undefined`.  The small
`JSVal`/`JSNum` model below captures exactly the slice of those semantics the
pricing function exercises.
-/

namespace FourT

/-- Result of a JavaScript property lookup as used in `getDownloadCost`:
either an own numeric property, an inherited (non-numeric, truthy) member of
`Object.prototype`, or `undefined`. -/
inductive JSVal where
  | num (n : Int)
  | protoFn
  | undefined
deriving DecidableEq, Repr

/-- The own property names of `Object.prototype` (ECMAScript): a lookup of one
of these keys on a plain object literal that lacks an own property of that
name yields the inherited member, not `undefined`. -/
def objectProtoKeys : List String :=
  ["constructor", "hasOwnProperty", "isPrototypeOf", "propertyIsEnumerable",
   "toLocaleString", "toString", "valueOf", "__proto__",
   "__defineGetter__", "__defineSetter__", "__lookupGetter__", "__lookupSetter__"]

/-- JavaScript property read `obj[key]` on a plain object literal whose own
properties are given by `own`: an own property wins, otherwise the prototype
chain is consulted. -/
def objGet (own : String → Option Int) (key : String) : JSVal :=
  match own key with
  | some n => .num n
  | none => if key ∈ objectProtoKeys then .protoFn else .undefined

/-- JavaScript truthiness of the values `getDownloadCost` can look up:
`0` and `undefined` are falsy, every other number and every function/object is
truthy. -/
def truthy : JSVal → Bool
  | .num n => n ≠ 0
  | .protoFn => true
  | .undefined => false

/-- JavaScript `v || d` for a numeric default `d`: keeps `v` when truthy,
otherwise evaluates to the default. -/
def orDefault (v : JSVal) (d : Int) : JSVal :=
  if truthy v then v else .num d

/-- A JavaScript number as produced by the pricing arithmetic: an integer or
`NaN` (coercing an inherited function/object to a number gives `NaN`). -/
inductive JSNum where
  | num (n : Int)
  | nan
deriving DecidableEq, Repr

/-- JavaScript subtraction `a - b` on the values reachable here: numeric on
numbers, `NaN` as soon as either operand coerces to `NaN`. -/
def jsSub : JSVal → JSVal → JSNum
  | .num a, .num b => .num (a - b)
  | _, _ => .nan

/-- JavaScript `Math.max(0, x)`: clamps a number below at `0` and maps `NaN`
to `NaN`. -/
def jsMax0 : JSNum → JSNum
  | .num n => .num (max 0 n)
  | .nan => .nan

/-- Own properties of the `baseCosts` object literal in `getDownloadCost`:
`{ normal: 3, premium: 8, exclusive: 15 }`. -/
def baseCosts (midiType : String) : Option Int :=
  if midiType = "normal" then some 3
  else if midiType = "premium" then some 8
  else if midiType = "exclusive" then some 15
  else none

/-- Own properties of the `discounts` object literal in `getDownloadCost`:
`{ newcomer: 0, player: 1, contributor: 1, artist: 2, star: 3, legend: 99 }`. -/
def discounts (rank : String) : Option Int :=
  if rank = "newcomer" then some 0
  else if rank = "player" then some 1
  else if rank = "contributor" then some 1
  else if rank = "artist" then some 2
  else if rank = "star" then some 3
  else if rank = "legend" then some 99
  else none

/-- `getDownloadCost(rank, midiType)` from `app.js` lines 273–279:
`const base = baseCosts[midiType] || 3; const discount = discounts[rank] || 0;
return Math.max(0, base - discount);`. -/
def getDownloadCost (rank midiType : String) : JSNum :=
  let base := orDefault (objGet baseCosts midiType) 3
  let discount := orDefault (objGet discounts rank) 0
  jsMax0 (jsSub base discount)

/-- The six user ranks of the discount table. -/
def ranks : List String :=
  ["newcomer", "player", "contributor", "artist", "star", "legend"]

/-- The three content tiers of the base-cost table. -/
def tiers : List String := ["normal", "premium", "exclusive"]

/-- Base cost of a tier as the spec's table reads it (with the code's
fallback `3` off the table). -/
def baseOf (midiType : String) : Int := (baseCosts midiType).getD 3

/-- Discount of a rank as the spec's table reads it (with the code's
fallback `0` off the table). -/
def discountOf (rank : String) : Int := (discounts rank).getD 0

/-- Comparison of two JavaScript numbers, false as soon as either is `NaN`
(as every JavaScript comparison with `NaN` is). -/
def jsLe : JSNum → JSNum → Bool
  | .num a, .num b => a ≤ b
  | _, _ => false

/-- The signed-in user as the frontend holds it; only the fields this core
reads are modelled. -/
structure UserInfo where
  rank : String
  points : Int
deriving DecidableEq, Repr

/-- `midi.midi_type || 'normal'` in `createMidiCard`: the empty string is the
falsy string, so a missing/empty type displays as `normal`. -/
def cardType (midi_type : String) : String :=
  if midi_type = "" then "normal" else midi_type

/-- `currentUser?.rank || 'newcomer'` in `createMidiCard`: an anonymous
visitor, or a user whose rank is the falsy empty string, is priced as
`newcomer`. -/
def displayedRank (u : Option UserInfo) : String :=
  match u with
  | none => "newcomer"
  | some x => if x.rank = "" then "newcomer" else x.rank

/-- The cost `createMidiCard` (`app.js` lines 243–246) computes and displays
on a card. -/
def cardCost (u : Option UserInfo) (midi_type : String) : JSNum :=
  getDownloadCost (displayedRank u) (cardType midi_type)

/-- The error taxonomy of the core (spec §7), as surfaced to the client. -/
inductive ApiError where
  | unauthorized
  | notFound
  | invalidInput
  | insufficientPoints
deriving DecidableEq, Repr

/-- Modelled from the spec: the server-side Ledger and Entitlement Gate
(§4.3, §4.4) are not under `src/` (the repository only ships the frontend
client); per-user state is the point balance, the user's completed-download
counter and the append-only audit records. -/
structure UserLedger where
  points : Int
  downloadCount : Nat
  records : List String
deriving DecidableEq, Repr

/-- A credit (reward) or debit (priced download) against one user's ledger. -/
inductive LedgerOp where
  | credit (amount : Nat) (reason : String)
  | debit (amount : Nat) (reason : String)
deriving DecidableEq, Repr

/-- Modelled from the spec: `credit` increments the balance and records the
reason; `debit` is the Entitlement Gate's atomic transaction — it fails with
`InsufficientPoints` when `balance < amount`, and only on success debits the
points, increments the counter and appends the record (§4.3, §4.4 step 6). -/
def ledgerStep (s : UserLedger) (op : LedgerOp) : Except ApiError UserLedger :=
  match op with
  | .credit a reason =>
    .ok { s with points := s.points + a, records := reason :: s.records }
  | .debit a reason =>
    if s.points < a then .error .insufficientPoints
    else .ok { points := s.points - a,
               downloadCount := s.downloadCount + 1,
               records := reason :: s.records }

/-- Run a sequence of ledger operations; a failed operation is recovered at
the request boundary and leaves the state as it was (§7). -/
def ledgerRun (s : UserLedger) (ops : List LedgerOp) : UserLedger :=
  match ops with
  | [] => s
  | op :: rest =>
    match ledgerStep s op with
    | .ok s' => ledgerRun s' rest
    | .error _ => ledgerRun s rest

/-- Modelled from the spec: a refresh token is `active`, `rotated` (used in a
successful refresh) or `revoked`; `rotated` and `revoked` are terminal
(§4.2). -/
inductive TokenStatus where
  | active
  | rotated
  | revoked
deriving DecidableEq, Repr

/-- Modelled from the spec: the server-side refresh-token table for one user
(§4.2, not under `src/`): a status per token id, and the next fresh id. -/
structure TokenStore where
  status : Nat → Option TokenStatus
  next : Nat

/-- Token Service operations of §4.2: issue a fresh pair, present a refresh
token, or revoke every active token (logout-everywhere). -/
inductive TokenOp where
  | issue
  | refresh (tok : Nat)
  | revokeAll
deriving DecidableEq, Repr

/-- Fresh token ids are unused: every id at or beyond `next` has no status. -/
def TokenStore.wf (s : TokenStore) : Prop :=
  ∀ t, s.next ≤ t → s.status t = none

/-- Modelled from the spec: one Token Service operation (§4.2). `issue`
creates a fresh active token. `refresh tok` succeeds only when `tok` is
active; it marks `tok` rotated and issues a fresh active token, otherwise it
fails with `Unauthorized` and changes nothing. `revokeAll` turns every
active token revoked. -/
def tokenStep (s : TokenStore) (op : TokenOp) : TokenStore × Except ApiError (Option Nat) :=
  match op with
  | .issue =>
    ({ status := fun t => if t = s.next then some .active else s.status t,
       next := s.next + 1 }, .ok (some s.next))
  | .refresh tok =>
    if s.status tok = some .active then
      ({ status := fun t =>
           if t = s.next then some .active
           else if t = tok then some .rotated
           else s.status t,
         next := s.next + 1 }, .ok (some s.next))
    else (s, .error .unauthorized)
  | .revokeAll =>
    ({ s with status := fun t =>
         if s.status t = some .active then some .revoked else s.status t },
     .ok none)

/-- Run a sequence of Token Service operations. -/
def tokenRun (s : TokenStore) (ops : List TokenOp) : TokenStore :=
  match ops with
  | [] => s
  | op :: rest => tokenRun (tokenStep s op).1 rest

/-- A status from which the spec's state machine allows no further
transition. -/
def isTerminal : Option TokenStatus → Bool
  | some .rotated => true
  | some .revoked => true
  | _ => false

/-- The token pair a successful `/auth/refresh` response carries. -/
structure TokenPair where
  access_token : String
  refresh_token : String
deriving DecidableEq, Repr

/-- The frontend's token storage: the module-level variables `accessToken`
and `refreshToken` and the two `localStorage` slots they mirror. -/
structure ClientTokens where
  accessToken : Option String
  refreshToken : Option String
  lsAccess : Option String
  lsRefresh : Option String
deriving DecidableEq, Repr

/-- JavaScript truthiness of a nullable string variable: `null`/`undefined`
and the empty string are falsy. -/
def strTruthy : Option String → Bool
  | none => false
  | some t => t ≠ ""

/-- `refreshAccessToken` from `app.js` lines 85–107: returns `false` at once
when no (truthy) refresh token is stored; otherwise posts the stored token
and, on a successful response, overwrites both module variables and both
`localStorage` slots with the new pair and returns `true`; on a failed
response (or network error) returns `false` leaving storage untouched.
`server` maps the presented token to the response, `none` standing for a
non-ok response or a thrown fetch. -/
def refreshAccessToken (server : String → Option TokenPair)
    (s : ClientTokens) : ClientTokens × Bool :=
  match s.refreshToken with
  | none => (s, false)
  | some rt =>
    if rt = "" then (s, false)
    else
      match server rt with
      | none => (s, false)
      | some p =>
        ({ accessToken := some p.access_token,
           refreshToken := some p.refresh_token,
           lsAccess := some p.access_token,
           lsRefresh := some p.refresh_token }, true)

/-- The frontend's ambient session state: `currentUser`, `accessToken`,
`refreshToken`. -/
structure AuthState where
  currentUser : Option UserInfo
  accessToken : Option String
  refreshToken : Option String
deriving DecidableEq, Repr

/-- The events of `app.js` that write the ambient session state:
a successful login (`handleLogin`), a successful `/auth/me` check
(`checkAuth`, reached only when an access token is present), a successful
token refresh (`refreshAccessToken`, reached only when a refresh token is
present), `logout()` (also the end of every failed auth chain), and a
caught network error (which leaves the variables untouched). -/
inductive AuthEvent where
  | loginOk (access refresh : String) (user : UserInfo)
  | checkAuthOk (user : UserInfo)
  | refreshOk (access refresh : String)
  | logoutEv
  | netError
deriving DecidableEq, Repr

/-- Server-issued tokens are real tokens: the events carrying tokens from a
successful server response carry non-empty strings. -/
def eventOk : AuthEvent → Prop
  | .loginOk a _ _ => a ≠ ""
  | .refreshOk a _ => a ≠ ""
  | _ => True

/-- Effect of one session event on the ambient state: `checkAuth` proceeds
past its `!accessToken` guard, and `refreshAccessToken` past its
`!refreshToken` guard, only when the respective token is truthy. -/
def authStep (s : AuthState) (e : AuthEvent) : AuthState :=
  match e with
  | .loginOk a r u => ⟨some u, some a, some r⟩
  | .checkAuthOk u =>
    if strTruthy s.accessToken then { s with currentUser := some u } else s
  | .refreshOk a r =>
    if strTruthy s.refreshToken then
      { s with accessToken := some a, refreshToken := some r }
    else s
  | .logoutEv => ⟨none, none, none⟩
  | .netError => s

/-- Run a sequence of session events. -/
def authRun (s : AuthState) (es : List AuthEvent) : AuthState :=
  match es with
  | [] => s
  | e :: rest => authRun (authStep s e) rest

/-- Page-load state: `currentUser` is `null`; the tokens are whatever
`localStorage` held. -/
def initAuth (storedAccess storedRefresh : Option String) : AuthState :=
  ⟨none, storedAccess, storedRefresh⟩

/-- An HTTP request as the frontend builds it. -/
structure Request where
  url : String
  method : String
  authHeader : Option String
deriving DecidableEq, Repr

/-- The `Authorization` header `fetchWithAuth` builds: present exactly when
the stored access token is truthy. -/
def bearerHeader : Option String → Option String
  | none => none
  | some t => if t = "" then none else some ("Bearer " ++ t)

/-- `fetchWithAuth` from `app.js` lines 557–568: prefixes the API base and
attaches `Authorization: Bearer <accessToken>` exactly when a truthy access
token is stored. -/
def fetchWithAuthReq (s : AuthState) (url method : String) : Request :=
  { url := "/api" ++ url,
    method := method,
    authHeader := bearerHeader s.accessToken }

/-- `downloadMidi` from `app.js` lines 388–427, up to its first request:
with no `currentUser` it shows the login prompt and returns before any
fetch (no request, state untouched); otherwise it issues the download POST
through `fetchWithAuth`. -/
def downloadMidiReq (s : AuthState) (midiId : Nat) : Option Request × AuthState :=
  match s.currentUser with
  | none => (none, s)
  | some _ =>
    (some (fetchWithAuthReq s ("/community/midi/" ++ toString midiId ++ "/download") "POST"), s)

/-- `currentUser` is only ever set behind a stored truthy access token. -/
def authInv (s : AuthState) : Prop :=
  s.currentUser.isSome → strTruthy s.accessToken = true

/-- The whitespace characters `String.prototype.trim` strips (the common
ones; JavaScript also strips some rarer Unicode space characters). -/
def isJsWhitespace (c : Char) : Bool :=
  c = ' ' || c = '\t' || c = '\n' || c = '\r' || c = '\x0b' || c = '\x0c'

/-- `value.trim()`: strip leading and trailing whitespace. -/
def jsTrim (s : String) : String :=
  String.mk (((s.data.dropWhile isJsWhitespace).reverse.dropWhile isJsWhitespace).reverse)

/-- The comment text `addComment` (`app.js` lines 457–491) would send:
the input is trimmed and an empty result aborts before any request. -/
def addCommentClient (input : String) : Option String :=
  let content := jsTrim input
  if content = "" then none else some content

/-- Per-user view of the comment store: the posted comments and the
commenting user's point balance (commenting is rewarded with one point). -/
structure CommentState where
  comments : List (Nat × Nat × String)
  points : Int
deriving DecidableEq, Repr

/-- The comment length bound of spec §4.5. -/
def maxCommentLen : Nat := 2000

/-- Modelled from the spec: the server-side comment endpoint is not under
`src/`; per §4.5 the content is trimmed, an empty or over-long content
fails with `InvalidInput` (no comment appended, no reward credited), and a
valid comment is appended and rewarded once. -/
def commentServer (st : CommentState) (userId itemId : Nat)
    (content : String) : Except ApiError CommentState :=
  let c := jsTrim content
  if c = "" then .error .invalidInput
  else if maxCommentLen < c.length then .error .invalidInput
  else .ok { comments := (userId, itemId, c) :: st.comments,
             points := st.points + 1 }

/-- Replace the rating of the pair (user, item), keeping every other pair. -/
def ratingsUpsert (ratings : List (Nat × Nat × Nat)) (u i stars : Nat) :
    List (Nat × Nat × Nat) :=
  (u, i, stars) :: ratings.filter (fun p => !(p.1 == u && p.2.1 == i))

/-- The stored stars of the pair (user, item), if any. -/
def lookupRating (ratings : List (Nat × Nat × Nat)) (u i : Nat) : Option Nat :=
  (ratings.find? (fun p => p.1 == u && p.2.1 == i)).map (fun p => p.2.2)

/-- Modelled from the spec: the server-side rate endpoint is not under
`src/`; per §4.5 stars outside [1,5] fail with `InvalidInput` and store
nothing, stars inside are upserted for the (user, item) pair. -/
def rateServer (ratings : List (Nat × Nat × Nat)) (userId itemId stars : Nat) :
    Except ApiError (List (Nat × Nat × Nat)) :=
  if stars < 1 ∨ 5 < stars then .error .invalidInput
  else .ok (ratingsUpsert ratings userId itemId stars)

end FourT

namespace FourT

/-- Off the six known ranks, the `discounts` object literal has no own
property. -/
theorem discounts_eq_none (r : String) (h : r ∉ ranks) : discounts r = none := by
  simp only [ranks, List.mem_cons, List.not_mem_nil, or_false, not_or] at h
  obtain ⟨h1, h2, h3, h4, h5, h6⟩ := h
  simp [discounts, h1, h2, h3, h4, h5, h6]

/-- Off the three known tiers, the `baseCosts` object literal has no own
property. -/
theorem baseCosts_eq_none (t : String) (h : t ∉ tiers) : baseCosts t = none := by
  simp only [tiers, List.mem_cons, List.not_mem_nil, or_false, not_or] at h
  obtain ⟨h1, h2, h3⟩ := h
  simp [baseCosts, h1, h2, h3]

/-- A lookup whose key stays off the prototype chain yields an own numeric
property or `undefined`, never an inherited member. -/
theorem objGet_away_from_proto (own : String → Option Int) (key : String)
    (h : key ∉ objectProtoKeys) :
    objGet own key = .undefined ∨ ∃ n : Int, objGet own key = .num n := by
  unfold objGet
  cases hk : own key with
  | none => simp [h]
  | some n => exact Or.inr ⟨n, rfl⟩

/-- `v || d` applied to a numeric-or-undefined value is numeric. -/
theorem orDefault_num (v : JSVal) (d : Int)
    (h : v = .undefined ∨ ∃ n : Int, v = .num n) :
    ∃ m : Int, orDefault v d = .num m := by
  rcases h with h | ⟨n, h⟩ <;> subst h
  · exact ⟨d, rfl⟩
  · unfold orDefault truthy
    by_cases hn : n = 0
    · subst hn; exact ⟨d, by simp⟩
    · exact ⟨n, by simp [hn]⟩

/-- `getDownloadCost` with its `let` bindings substituted. -/
theorem getDownloadCost_eq (r t : String) :
    getDownloadCost r t =
      jsMax0 (jsSub (orDefault (objGet baseCosts t) 3)
                    (orDefault (objGet discounts r) 0)) := rfl

end FourT

namespace FourT

/-- C1. On every (rank, tier) pair of the two lookup tables,
`getDownloadCost` returns `max 0 (base tier - discount rank)` with base
normal=3, premium=8, exclusive=15 and discount newcomer=0, player=1,
contributor=1, artist=2, star=3, legend=99; in particular the price of an
exclusive item is 15 for a newcomer and 0 for a legend, and a normal item
costs a player 2. -/
theorem getDownloadCost_table (r t : String) (hr : r ∈ ranks) (ht : t ∈ tiers) :
    getDownloadCost r t = .num (max 0 (baseOf t - discountOf r)) ∧
    getDownloadCost "newcomer" "exclusive" = .num 15 ∧
    getDownloadCost "legend" "exclusive" = .num 0 ∧
    getDownloadCost "player" "normal" = .num 2 := by
  fin_cases hr <;> fin_cases ht <;> exact ⟨by decide, by decide, by decide, by decide⟩

/-- Witness for C1 at the concrete pair (player, normal). -/
theorem getDownloadCost_table_witness :
    getDownloadCost "player" "normal" = .num (max 0 (baseOf "normal" - discountOf "player")) :=
  (getDownloadCost_table "player" "normal" (by decide) (by decide)).1

/-- C5. On every tier of the table the legend discount 99 strictly exceeds the
base cost, so after the `Math.max(0, …)` clamp the legend price is exactly 0. -/
theorem legend_price_zero (t : String) (ht : t ∈ tiers) :
    baseOf t < discountOf "legend" ∧ getDownloadCost "legend" t = .num 0 := by
  fin_cases ht <;> exact ⟨by decide, by decide⟩

/-- Witness for C5 at the concrete tier exclusive. -/
theorem legend_price_zero_witness :
    baseOf "exclusive" < discountOf "legend" ∧
      getDownloadCost "legend" "exclusive" = .num 0 :=
  legend_price_zero "exclusive" (by decide)

/-- C9, counterexample. `getDownloadCost` is not a non-negative integer on
every string: the rank string `"toString"` finds the inherited
`Object.prototype.toString` (truthy, so `|| 0` keeps it), the subtraction
coerces it to `NaN`, and `Math.max(0, NaN)` is `NaN`. -/
theorem getDownloadCost_toString_nan :
    getDownloadCost "toString" "normal" = JSNum.nan := by decide

/-- C9, amended. For every rank and type string that does not name an
`Object.prototype` member: an unknown rank gets discount 0 (the full
newcomer price), an unknown type gets base cost 3 (priced as normal), and
the result is a non-negative integer; but on strings naming
`Object.prototype` members the lookup finds the inherited member and the
result is `NaN` rather than an integer. -/
theorem getDownloadCost_defaults (r t : String)
    (hr : r ∉ objectProtoKeys) (ht : t ∉ objectProtoKeys) :
    (r ∉ ranks → getDownloadCost r t = getDownloadCost "newcomer" t) ∧
    (t ∉ tiers → getDownloadCost r t = getDownloadCost r "normal") ∧
    (∃ n : Int, getDownloadCost r t = .num n ∧ 0 ≤ n) := by
  refine ⟨?_, ?_, ?_⟩
  · intro hrr
    have hd : objGet discounts r = .undefined := by
      unfold objGet; rw [discounts_eq_none r hrr]; simp [hr]
    have hn : objGet discounts "newcomer" = .num 0 := by decide
    have ho : orDefault JSVal.undefined 0 = orDefault (JSVal.num 0) 0 := by decide
    rw [getDownloadCost_eq, getDownloadCost_eq, hd, hn, ho]
  · intro htt
    have hb : objGet baseCosts t = .undefined := by
      unfold objGet; rw [baseCosts_eq_none t htt]; simp [ht]
    have hn : objGet baseCosts "normal" = .num 3 := by decide
    have ho : orDefault JSVal.undefined 3 = orDefault (JSVal.num 3) 3 := by decide
    rw [getDownloadCost_eq, getDownloadCost_eq, hb, hn, ho]
  · obtain ⟨b, hb⟩ := orDefault_num _ 3 (objGet_away_from_proto baseCosts t ht)
    obtain ⟨d, hd⟩ := orDefault_num _ 0 (objGet_away_from_proto discounts r hr)
    refine ⟨max 0 (b - d), ?_, le_max_left 0 _⟩
    rw [getDownloadCost_eq, hb, hd]
    rfl

/-- Witness for C9's amended theorem at the concrete strings
("somebody", "weird"). -/
theorem getDownloadCost_defaults_witness :
    getDownloadCost "somebody" "weird" = getDownloadCost "newcomer" "weird" :=
  (getDownloadCost_defaults "somebody" "weird" (by decide) (by decide)).1 (by decide)

/-- C10. The card price an anonymous visitor sees is the newcomer price
(`createMidiCard` defaults a missing rank to newcomer), and on every
(rank, tier) pair of the tables the newcomer price bounds the rank's price
from above: no signed-in rank pays more than the anonymous display price. -/
theorem anonymous_price_upper_bound (r t : String) (hr : r ∈ ranks) (ht : t ∈ tiers) :
    cardCost none t = getDownloadCost "newcomer" t ∧
    jsLe (getDownloadCost r t) (getDownloadCost "newcomer" t) = true := by
  fin_cases hr <;> fin_cases ht <;> exact ⟨by decide, by decide⟩

/-- Witness for C10 at the concrete pair (legend, exclusive). -/
theorem anonymous_price_upper_bound_witness :
    cardCost none "exclusive" = getDownloadCost "newcomer" "exclusive" ∧
    jsLe (getDownloadCost "legend" "exclusive") (getDownloadCost "newcomer" "exclusive") = true :=
  anonymous_price_upper_bound "legend" "exclusive" (by decide) (by decide)

/-- A single successful ledger operation keeps the balance non-negative. -/
theorem ledgerStep_nonneg (s : UserLedger) (op : LedgerOp) (s' : UserLedger)
    (h : 0 ≤ s.points) (hs : ledgerStep s op = .ok s') : 0 ≤ s'.points := by
  cases op with
  | credit a reason =>
    simp only [ledgerStep] at hs
    cases hs
    simp only []
    omega
  | debit a reason =>
    simp only [ledgerStep] at hs
    by_cases hlt : s.points < a
    · rw [if_pos hlt] at hs
      cases hs
    · rw [if_neg hlt] at hs
      cases hs
      simp only []
      omega

/-- Along any run, the balance stays non-negative. -/
theorem ledgerRun_nonneg (s : UserLedger) (ops : List LedgerOp)
    (h : 0 ≤ s.points) : 0 ≤ (ledgerRun s ops).points := by
  induction ops generalizing s with
  | nil => exact h
  | cons op rest ih =>
    cases hstep : ledgerStep s op with
    | ok s' =>
      simp only [ledgerRun, hstep]
      exact ih s' (ledgerStep_nonneg s op s' h hstep)
    | error e =>
      simp only [ledgerRun, hstep]
      exact ih s h

/-- C2. Starting from a non-negative balance, no sequence of credits and
debits drives the balance below zero; a debit larger than the current
balance fails with `InsufficientPoints` and contributes nothing to the run —
no points debited, no download counter incremented, no record appended. -/
theorem ledger_nonneg_invariant (s : UserLedger) (ops : List LedgerOp)
    (h : 0 ≤ s.points) :
    0 ≤ (ledgerRun s ops).points ∧
    ∀ (a : Nat) (reason : String), s.points < a →
      ledgerStep s (.debit a reason) = .error .insufficientPoints ∧
      ledgerRun s (.debit a reason :: ops) = ledgerRun s ops := by
  refine ⟨ledgerRun_nonneg s ops h, ?_⟩
  intro a reason hlt
  have hstep : ledgerStep s (.debit a reason) = .error .insufficientPoints := by
    simp only [ledgerStep]
    rw [if_pos hlt]
  exact ⟨hstep, by simp only [ledgerRun, hstep]⟩

/-- Witness for C2: balance 5, then a reward of 2, an unaffordable debit of
100 (rejected) and an affordable debit of 3; the balance stays
non-negative and the rejected debit errors with `InsufficientPoints`. -/
theorem ledger_nonneg_invariant_witness :
    0 ≤ (ledgerRun ⟨5, 0, []⟩
          [.credit 2 "comment", .debit 100 "download:9", .debit 3 "download:1"]).points ∧
    ledgerStep ⟨2, 0, ["signup"]⟩ (.debit 100 "download:9") = .error .insufficientPoints :=
  ⟨(ledger_nonneg_invariant ⟨5, 0, []⟩ _ (by decide)).1,
   ((ledger_nonneg_invariant ⟨2, 0, ["signup"]⟩ [] (by decide)).2 100 "download:9" (by decide)).1⟩

/-- One Token Service operation keeps fresh ids unused. -/
theorem tokenStep_wf (s : TokenStore) (op : TokenOp) (hwf : s.wf) :
    (tokenStep s op).1.wf := by
  cases op with
  | issue =>
    intro t ht
    have ht' : s.next + 1 ≤ t := ht
    show (if t = s.next then some TokenStatus.active else s.status t) = none
    rw [if_neg (by omega)]
    exact hwf t (by omega)
  | refresh tk =>
    by_cases ha : s.status tk = some .active
    · have hk : tk < s.next := by
        by_contra hcon
        push_neg at hcon
        rw [hwf tk hcon] at ha
        exact Option.noConfusion ha
      simp only [tokenStep, if_pos ha]
      intro t ht
      have ht' : s.next + 1 ≤ t := ht
      show (if t = s.next then some TokenStatus.active
            else if t = tk then some TokenStatus.rotated
            else s.status t) = none
      rw [if_neg (by omega), if_neg (by omega)]
      exact hwf t (by omega)
    · simp only [tokenStep, if_neg ha]
      exact hwf
  | revokeAll =>
    intro t ht
    have ht' : s.next ≤ t := ht
    show (if s.status t = some TokenStatus.active then some TokenStatus.revoked
          else s.status t) = none
    rw [hwf t ht']
    simp

/-- No Token Service operation changes the status of a token that is already
terminal (rotated or revoked). -/
theorem tokenStep_preserves_terminal (s : TokenStore) (op : TokenOp) (tok : Nat)
    (hwf : s.wf) (hterm : isTerminal (s.status tok) = true) :
    (tokenStep s op).1.status tok = s.status tok := by
  have htok : s.status tok ≠ none := by
    intro h
    rw [h] at hterm
    exact Bool.noConfusion hterm
  have hlt : tok < s.next := by
    by_contra hcon
    push_neg at hcon
    exact htok (hwf tok hcon)
  have hact : s.status tok ≠ some .active := by
    intro h
    rw [h] at hterm
    exact Bool.noConfusion hterm
  cases op with
  | issue =>
    show (if tok = s.next then some TokenStatus.active else s.status tok) = s.status tok
    rw [if_neg (by omega)]
  | refresh tk =>
    by_cases ha : s.status tk = some .active
    · have hne : tok ≠ tk := by
        intro he
        rw [he] at hact
        exact hact ha
      simp only [tokenStep, if_pos ha]
      show (if tok = s.next then some TokenStatus.active
            else if tok = tk then some TokenStatus.rotated
            else s.status tok) = s.status tok
      rw [if_neg (by omega), if_neg hne]
    · simp only [tokenStep, if_neg ha]
  | revokeAll =>
    show (if s.status tok = some TokenStatus.active then some TokenStatus.revoked
          else s.status tok) = s.status tok
    rw [if_neg hact]

/-- Along any run, fresh ids stay unused. -/
theorem tokenRun_wf (s : TokenStore) (ops : List TokenOp) (hwf : s.wf) :
    (tokenRun s ops).wf := by
  induction ops generalizing s with
  | nil => exact hwf
  | cons op rest ih => exact ih (tokenStep s op).1 (tokenStep_wf s op hwf)

/-- Along any run, a terminal token keeps its status. -/
theorem tokenRun_preserves_terminal (s : TokenStore) (ops : List TokenOp) (tok : Nat)
    (hwf : s.wf) (hterm : isTerminal (s.status tok) = true) :
    (tokenRun s ops).status tok = s.status tok := by
  induction ops generalizing s with
  | nil => rfl
  | cons op rest ih =>
    have h1 := tokenStep_preserves_terminal s op tok hwf hterm
    have h2 := ih (tokenStep s op).1 (tokenStep_wf s op hwf) (by rw [h1]; exact hterm)
    calc (tokenRun s (op :: rest)).status tok
        = (tokenRun (tokenStep s op).1 rest).status tok := rfl
      _ = (tokenStep s op).1.status tok := h2
      _ = s.status tok := h1

/-- C3. A refresh token that has been rotated out or revoked is terminal
forever: after any further sequence of Token Service operations it is still
terminal, presenting it again fails with `Unauthorized` and changes no
state; and a successful refresh itself rotates out the presented token while
answering with the freshly issued one. -/
theorem refresh_token_single_use (s : TokenStore) (ops : List TokenOp) (tok : Nat)
    (hwf : s.wf) (hterm : isTerminal (s.status tok) = true) :
    isTerminal ((tokenRun s ops).status tok) = true ∧
    tokenStep (tokenRun s ops) (.refresh tok) = (tokenRun s ops, .error .unauthorized) ∧
    ∀ tk, s.status tk = some .active →
      (tokenStep s (.refresh tk)).1.status tk = some .rotated ∧
      (tokenStep s (.refresh tk)).2 = .ok (some s.next) := by
  have hrun : (tokenRun s ops).status tok = s.status tok :=
    tokenRun_preserves_terminal s ops tok hwf hterm
  have hterm' : isTerminal ((tokenRun s ops).status tok) = true := by
    rw [hrun]; exact hterm
  refine ⟨hterm', ?_, ?_⟩
  · have hact : (tokenRun s ops).status tok ≠ some .active := by
      intro h
      rw [h] at hterm'
      exact Bool.noConfusion hterm'
    simp only [tokenStep, if_neg hact]
  · intro tk ha
    have hk : tk < s.next := by
      by_contra hcon
      push_neg at hcon
      rw [hwf tk hcon] at ha
      exact Option.noConfusion ha
    constructor
    · simp only [tokenStep, if_pos ha]
      have hne : tk ≠ s.next := by omega
      simp [hne]
    · simp only [tokenStep, if_pos ha]

/-- Witness for C3: a store whose token 0 was rotated out; after an `issue`
and a foreign `refresh`, presenting token 0 still fails with
`Unauthorized`. -/
theorem refresh_token_single_use_witness :
    (tokenStep (tokenRun ⟨fun t => if t = 0 then some .rotated else none, 1⟩
                  [.issue, .refresh 1]) (.refresh 0)).2 = .error .unauthorized := by
  have h := refresh_token_single_use
    ⟨fun t => if t = 0 then some .rotated else none, 1⟩ [.issue, .refresh 1] 0
    (by
      intro t ht
      have ht' : 1 ≤ t := ht
      have hne : t ≠ 0 := by omega
      simp [hne])
    (by decide)
  rw [h.2.1]

/-- C4. The client refresh call: with no truthy refresh token stored it
returns `false` leaving storage untouched; on a failed server response it
returns `false` leaving storage untouched; on a successful response it
overwrites both module variables and both `localStorage` slots with the
newly issued pair and returns `true`, and — the new refresh token being a
fresh one — the presented token is no longer stored anywhere. -/
theorem refreshAccessToken_spec (server : String → Option TokenPair) (s : ClientTokens) :
    (strTruthy s.refreshToken = false → refreshAccessToken server s = (s, false)) ∧
    (∀ rt, s.refreshToken = some rt → rt ≠ "" → server rt = none →
      refreshAccessToken server s = (s, false)) ∧
    (∀ rt p, s.refreshToken = some rt → rt ≠ "" → server rt = some p →
      refreshAccessToken server s =
        ({ accessToken := some p.access_token,
           refreshToken := some p.refresh_token,
           lsAccess := some p.access_token,
           lsRefresh := some p.refresh_token }, true) ∧
      (p.refresh_token ≠ rt →
        (refreshAccessToken server s).1.refreshToken ≠ some rt ∧
        (refreshAccessToken server s).1.lsRefresh ≠ some rt)) := by
  refine ⟨?_, ?_, ?_⟩
  · intro hf
    cases hsrt : s.refreshToken with
    | none => simp [refreshAccessToken, hsrt]
    | some rt =>
      rw [hsrt] at hf
      have hrt : rt = "" := by
        by_contra hne
        simp [strTruthy, hne] at hf
      subst hrt
      simp [refreshAccessToken, hsrt]
  · intro rt h1 h2 h3
    simp [refreshAccessToken, h1, h2, h3]
  · intro rt p h1 h2 h3
    have he : refreshAccessToken server s =
        ({ accessToken := some p.access_token,
           refreshToken := some p.refresh_token,
           lsAccess := some p.access_token,
           lsRefresh := some p.refresh_token }, true) := by
      simp [refreshAccessToken, h1, h2, h3]
    refine ⟨he, ?_⟩
    intro hne
    rw [he]
    exact ⟨by simp [hne], by simp [hne]⟩

/-- Witness for C4: a stored pair ("A1", "R1") and a server answering with
the rotated pair ("A2", "R2"); the call replaces all four slots and
returns `true`. -/
theorem refreshAccessToken_spec_witness :
    refreshAccessToken (fun _ => some ⟨"A2", "R2"⟩)
        ⟨some "A1", some "R1", some "A1", some "R1"⟩ =
      (⟨some "A2", some "R2", some "A2", some "R2"⟩, true) :=
  ((refreshAccessToken_spec (fun _ => some ⟨"A2", "R2"⟩)
      ⟨some "A1", some "R1", some "A1", some "R1"⟩).2.2 "R1" ⟨"A2", "R2"⟩ rfl
      (by decide) rfl).1

/-- One session event preserves the invariant that a signed-in user implies
a stored truthy access token. -/
theorem authStep_inv (s : AuthState) (e : AuthEvent) (h : authInv s) (he : eventOk e) :
    authInv (authStep s e) := by
  cases e with
  | loginOk a r u =>
    intro _
    show strTruthy (some a) = true
    simp [strTruthy]
    exact he
  | checkAuthOk u =>
    cases hb : strTruthy s.accessToken with
    | false =>
      simp only [authStep, hb, Bool.false_eq_true, if_false]
      exact h
    | true =>
      simp only [authStep, hb, if_true]
      intro _
      exact hb
  | refreshOk a r =>
    cases hb : strTruthy s.refreshToken with
    | false =>
      simp only [authStep, hb, Bool.false_eq_true, if_false]
      exact h
    | true =>
      simp only [authStep, hb, if_true]
      intro _
      show strTruthy (some a) = true
      simp [strTruthy]
      exact he
  | logoutEv =>
    intro hc
    exact Bool.noConfusion hc
  | netError => exact h

/-- The invariant holds in every state reachable from a page load through
well-formed session events. -/
theorem authRun_inv (s : AuthState) (es : List AuthEvent) (h : authInv s)
    (hes : ∀ e ∈ es, eventOk e) : authInv (authRun s es) := by
  induction es generalizing s with
  | nil => exact h
  | cons e rest ih =>
    exact ih (authStep s e) (authStep_inv s e h (hes e (by simp)))
      (fun e' he' => hes e' (by simp [he']))

/-- C6. In every session state reachable from a page load through
well-formed events: with nobody signed in, `downloadMidi` issues no request
and touches no state; with a user signed in, the download POST goes out
carrying the `Authorization: Bearer` header built from the stored access
token, which the reachability invariant guarantees to be present. -/
theorem downloadMidi_authenticated (a r : Option String) (es : List AuthEvent)
    (midiId : Nat) (hes : ∀ e ∈ es, eventOk e) :
    ((authRun (initAuth a r) es).currentUser = none →
      downloadMidiReq (authRun (initAuth a r) es) midiId =
        (none, authRun (initAuth a r) es)) ∧
    ((authRun (initAuth a r) es).currentUser.isSome = true →
      (bearerHeader (authRun (initAuth a r) es).accessToken).isSome = true ∧
      downloadMidiReq (authRun (initAuth a r) es) midiId =
        (some { url := "/api" ++ ("/community/midi/" ++ toString midiId ++ "/download"),
                method := "POST",
                authHeader := bearerHeader (authRun (initAuth a r) es).accessToken },
         authRun (initAuth a r) es)) := by
  have hinv : authInv (authRun (initAuth a r) es) :=
    authRun_inv (initAuth a r) es (fun hc => Bool.noConfusion hc) hes
  constructor
  · intro hn
    simp [downloadMidiReq, hn]
  · intro hs
    have ht : strTruthy (authRun (initAuth a r) es).accessToken = true := hinv hs
    constructor
    · cases hat : (authRun (initAuth a r) es).accessToken with
      | none =>
        rw [hat] at ht
        exact Bool.noConfusion ht
      | some t =>
        rw [hat] at ht
        have hnet : t ≠ "" := by simpa [strTruthy] using ht
        simp [bearerHeader, hnet]
    · cases hcu : (authRun (initAuth a r) es).currentUser with
      | none =>
        rw [hcu] at hs
        exact Bool.noConfusion hs
      | some u =>
        simp [downloadMidiReq, hcu, fetchWithAuthReq]

/-- Witness for C6: after a successful login the download POST for item 7
carries `Bearer tokA`. -/
theorem downloadMidi_authenticated_witness :
    (bearerHeader (authRun (initAuth none none)
        [.loginOk "tokA" "tokR" ⟨"player", 5⟩]).accessToken).isSome = true ∧
    downloadMidiReq (authRun (initAuth none none)
        [.loginOk "tokA" "tokR" ⟨"player", 5⟩]) 7 =
      (some { url := "/api" ++ ("/community/midi/" ++ toString 7 ++ "/download"),
              method := "POST",
              authHeader := bearerHeader (authRun (initAuth none none)
                [.loginOk "tokA" "tokR" ⟨"player", 5⟩]).accessToken },
       authRun (initAuth none none) [.loginOk "tokA" "tokR" ⟨"player", 5⟩]) :=
  (downloadMidi_authenticated none none [.loginOk "tokA" "tokR" ⟨"player", 5⟩] 7
    (by
      intro e he
      rw [List.mem_singleton] at he
      subst he
      show ("tokA" : String) ≠ ""
      decide)).2 rfl

/-- C7. The comment text is trimmed before use: an input that is empty after
trimming aborts the client before any request; a non-empty trimmed input is
what gets sent; and the (spec-modelled) server rejects an empty or
over-2000-character trimmed content with `InvalidInput`, creating no
comment and crediting no reward. -/
theorem comment_validation (input : String) (st : CommentState) (u i : Nat) :
    (jsTrim input = "" → addCommentClient input = none) ∧
    (jsTrim input ≠ "" → addCommentClient input = some (jsTrim input)) ∧
    ((jsTrim input = "" ∨ maxCommentLen < (jsTrim input).length) →
      commentServer st u i input = .error .invalidInput) := by
  refine ⟨?_, ?_, ?_⟩
  · intro h
    simp [addCommentClient, h]
  · intro h
    simp [addCommentClient, h]
  · intro h
    rcases h with h | h
    · simp [commentServer, h]
    · have hne : jsTrim input ≠ "" := by
        intro he
        rw [he] at h
        simp [maxCommentLen] at h
      simp [commentServer, hne, h]

/-- Witness for C7: a whitespace-only input sends nothing, and the server
rejects the empty content with `InvalidInput`. -/
theorem comment_validation_witness :
    addCommentClient " " = none ∧
    commentServer ⟨[], 0⟩ 1 2 "" = .error .invalidInput :=
  ⟨(comment_validation " " ⟨[], 0⟩ 1 2).1 (by decide),
   (comment_validation "" ⟨[], 0⟩ 1 2).2.2 (Or.inl (by decide))⟩

/-- C8. The (spec-modelled) rating endpoint rejects stars outside [1,5] with
`InvalidInput`, storing nothing; stars inside [1,5] are accepted and
upserted, so the stored rating of the (user, item) pair is the submitted
value. -/
theorem rate_validation (ratings : List (Nat × Nat × Nat)) (u i stars : Nat) :
    ((stars < 1 ∨ 5 < stars) → rateServer ratings u i stars = .error .invalidInput) ∧
    (1 ≤ stars → stars ≤ 5 →
      rateServer ratings u i stars = .ok (ratingsUpsert ratings u i stars) ∧
      lookupRating (ratingsUpsert ratings u i stars) u i = some stars) := by
  refine ⟨?_, ?_⟩
  · intro h
    simp only [rateServer, if_pos h]
  · intro h1 h2
    have hng : ¬(stars < 1 ∨ 5 < stars) := by omega
    refine ⟨by simp only [rateServer, if_neg hng], ?_⟩
    simp [lookupRating, ratingsUpsert, List.find?]

/-- Witness for C8: 0 stars are rejected; re-rating the pair (1, 2) from 3
to 5 stars stores 5. -/
theorem rate_validation_witness :
    rateServer [] 1 2 0 = .error .invalidInput ∧
    lookupRating (ratingsUpsert [(1, 2, 3)] 1 2 5) 1 2 = some 5 :=
  ⟨(rate_validation [] 1 2 0).1 (by decide),
   ((rate_validation [(1, 2, 3)] 1 2 5).2 (by decide) (by decide)).2⟩

end FourT
